import Mathlib

set_option linter.unusedVariables false

/-!
Shallow embedding of `src/calculadora1718horas.py`.

Python numbers are modelled by `ℚ`; a Python value that may be `None` is
modelled by `Option ℚ` (`none` = Python `None`).  A Python `TypeError`
raised by arithmetic on `None` is modelled by `Except PyErr`.
-/

/-- Python `TypeError` raised by arithmetic or comparison on `None`. -/
inductive PyErr where
  | typeError
deriving DecidableEq

/-- Python truthiness of a float-or-None value: `None` and `0` are falsy. -/
def truthyOpt : Option ℚ → Bool
  | none => false
  | some q => decide (q ≠ 0)

/-- Embedding of `calculate_theoretical_price(arg_price, us_price_17, us_price_18, ratio)`
(lines 129-134): `if not us_price_17 or us_price_17 == 0: return None`, then
`pct_change = (us_price_18 - us_price_17) / us_price_17` and
`arg_price * (1 + pct_change)`.  Arithmetic on `None` raises `TypeError`;
`ratio` is accepted but never read. -/
def calculate_theoretical_price (arg_price us_price_17 us_price_18 ratio : Option ℚ) :
    Except PyErr (Option ℚ) :=
  if truthyOpt us_price_17 = false ∨ us_price_17 = some 0 then
    Except.ok none
  else
    match us_price_18, us_price_17, arg_price with
    | some p18, some p17, some pa =>
        Except.ok (some (pa * (1 + (p18 - p17) / p17)))
    | _, _, _ => Except.error PyErr.typeError

/-- Embedding of `calculate_implied_exchange_rate(arg_price, us_price, ratio)`
(lines 136-139): `if arg_price and us_price and ratio and us_price > 0:
return (arg_price * ratio) / us_price` else `None`.  The three truthiness
tests short-circuit before the comparison `us_price > 0`, so a `None`
comparison (the `TypeError` branch) is behind the truthiness guard. -/
def calculate_implied_exchange_rate (arg_price us_price ratio : Option ℚ) :
    Except PyErr (Option ℚ) :=
  if truthyOpt arg_price = true ∧ truthyOpt us_price = true ∧ truthyOpt ratio = true then
    match us_price with
    | none => Except.error PyErr.typeError
    | some u =>
      if 0 < u then
        match arg_price, ratio with
        | some a, some r => Except.ok (some ((a * r) / u))
        | _, _ => Except.error PyErr.typeError
      else
        Except.ok none
  else
    Except.ok none

/-- `now.replace(microsecond=0)` on a time-of-day measured in microseconds. -/
def truncMicrosecond (n : ℕ) : ℕ := (n / 1000000) * 1000000

/-- Embedding of `should_apply_delay()` (lines 49-62).  `nowMicro` is the
current time of day in the America/Argentina/Buenos_Aires timezone, in
microseconds since local midnight.  `market_start` is 11:30:00, `market_end`
is 17:00:00 of the same local day, and the result is
`market_start <= now.replace(microsecond=0) < market_end`. -/
def should_apply_delay (nowMicro : ℕ) : Bool :=
  decide ((11 * 3600 + 30 * 60) * 1000000 ≤ truncMicrosecond nowMicro) &&
  decide (truncMicrosecond nowMicro < (17 * 3600) * 1000000)

/-- One row of the minute-resolution dataframe returned by the provider:
a UTC timestamp (seconds since the epoch) and a close price. -/
structure Bar where
  ts : ℤ
  close : ℚ
deriving DecidableEq

/-- The 20-minute delay filter of `get_yf_data` (lines 29-33):
`stock = stock[stock.index <= current_time - timedelta(minutes=20)]`,
with `cutoff = current_time - 20 minutes` already computed. -/
def delay_filter (cutoff : ℤ) (stock : List Bar) : List Bar :=
  stock.filter (fun b => decide (b.ts ≤ cutoff))

/-- The inner `for attempt in range(retries)` loop of `get_yf_data`
(lines 20-45) for one adjusted date window.  `fetch adjStart adjEnd attempt`
is the provider call `yf.download` (an `Except.error` models a raised
exception, which the `except` clause swallows).  The result pairs the
returned series (or `none` when every attempt fails) with the number of
provider calls performed. -/
def attempts_loop (fetch : ℤ → ℤ → ℕ → Except Unit (List Bar))
    (adjStart adjEnd : ℤ) (apply_delay : Bool) (cutoff : ℤ) :
    List ℕ → Option (List Bar) × ℕ
  | [] => (none, 0)
  | attempt :: rest =>
    match fetch adjStart adjEnd attempt with
    | Except.error _ =>
        let r := attempts_loop fetch adjStart adjEnd apply_delay cutoff rest
        (r.1, r.2 + 1)
    | Except.ok stock =>
        if stock = [] then
          let r := attempts_loop fetch adjStart adjEnd apply_delay cutoff rest
          (r.1, r.2 + 1)
        else
          let stock2 := if apply_delay then delay_filter cutoff stock else stock
          if stock2 = [] then
            let r := attempts_loop fetch adjStart adjEnd apply_delay cutoff rest
            (r.1, r.2 + 1)
          else
            (some stock2, 1)

/-- The outer `for days_back in range(max_days_back)` loop of `get_yf_data`
(lines 16-47).  Each day shifts both dates back by `days_back` and runs the
attempt loop; a success carries the series together with the `days_back`
diagnostic (the `st.info` tag of line 36-38).  The second component again
counts provider calls. -/
def days_loop (fetch : ℤ → ℤ → ℕ → Except Unit (List Bar))
    (start_date end_date : ℤ) (apply_delay : Bool) (cutoff : ℤ) (retries : ℕ) :
    List ℕ → Option (List Bar × ℕ) × ℕ
  | [] => (none, 0)
  | days_back :: rest =>
    let a := attempts_loop fetch (start_date - (days_back : ℤ)) (end_date - (days_back : ℤ))
      apply_delay cutoff (List.range retries)
    match a.1 with
    | some stock => (some (stock, days_back), a.2)
    | none =>
        let r := days_loop fetch start_date end_date apply_delay cutoff retries rest
        (r.1, a.2 + r.2)

/-- Embedding of `get_yf_data(ticker, start_date, end_date, apply_delay=False,
retries=3)` (lines 9-47), with the provider passed in as `fetch` (the `ticker`
argument is absorbed into that closure) and the ambient clock as `nowUTC`
(seconds).  `max_days_back = 5` is fixed in the source; the delay cutoff is
`now - 20 minutes`.  Returns the series and its `days_back` tag on success,
`none` after exhausting every (day, attempt) pair, paired with the number of
provider calls performed. -/
def get_yf_data (fetch : ℤ → ℤ → ℕ → Except Unit (List Bar))
    (start_date end_date : ℤ) (apply_delay : Bool) (nowUTC : ℤ) (retries : ℕ := 3) :
    Option (List Bar × ℕ) × ℕ :=
  days_loop fetch start_date end_date apply_delay (nowUTC - 20 * 60) retries (List.range 5)

/-- Calendar date (day number) of a bar in the feed's native timezone, the
timezone of the raw `stock.index`; `feedOff` is that timezone's UTC offset in
seconds.  This is `us_data.index.date` of line 105. -/
def feed_date (feedOff : ℤ) (b : Bar) : ℤ := (b.ts + feedOff).fdiv 86400

/-- Calendar date of a bar after `tz_convert` to America/Argentina/Buenos_Aires
(`domOff` = that timezone's UTC offset in seconds). -/
def dom_date (domOff : ℤ) (b : Bar) : ℤ := (b.ts + domOff).fdiv 86400

/-- Time of day (seconds since local midnight) of a bar in the domestic
timezone, i.e. `today_data_tz.index.time` of line 113. -/
def dom_tod (domOff : ℤ) (b : Bar) : ℤ := (b.ts + domOff).emod 86400

/-- The key of the `min(..., key=lambda x: abs(x.replace(second=0,
microsecond=0) - target_time))` call of lines 118-119: the bar's domestic
civil time with seconds dropped, minus the target instant
(`today`'s date at time-of-day `target`), in absolute value. -/
def minute_key (domOff today target : ℤ) (b : Bar) : ℤ :=
  |60 * ((b.ts + domOff).fdiv 60) - (today * 86400 + target)|

/-- `today_data = us_data[us_data.index.date == now.date()]` (line 105):
the date filter runs on the raw feed-timezone index, `today` being the
domestic-timezone current date. -/
def today_data (feedOff today : ℤ) (series : List Bar) : List Bar :=
  series.filter (fun b => decide (feed_date feedOff b = today))

/-- `window_data` (lines 113-115): after converting `today_data`'s index to
the domestic timezone, keep the bars whose time of day lies in the inclusive
window `[target - tol minutes, target + tol minutes]`. -/
def window_data (feedOff domOff today target tol : ℤ) (series : List Bar) : List Bar :=
  (today_data feedOff today series).filter
    (fun b => decide (target - tol * 60 ≤ dom_tod domOff b) &&
              decide (dom_tod domOff b ≤ target + tol * 60))

/-- Python's `min(..., key=...)`: scans left to right and keeps the first
element whose key is the minimum (a later element replaces the current one
only on a strict improvement). -/
def min_by_first (key : Bar → ℤ) : List Bar → Option Bar
  | [] => none
  | b :: rest =>
    match min_by_first key rest with
    | none => some b
    | some m => if key m < key b then some m else some b

/-- The target-time alignment of `get_prices_and_calculate` (lines 99-121):
filter to today's (feed-timezone) date, keep the ±`tol`-minute window around
`target` in domestic time of day, and take the minimum of the minute-truncated
distance to the target, first such bar winning ties. -/
def nearest_at (feedOff domOff today target tol : ℤ) (series : List Bar) : Option Bar :=
  min_by_first (minute_key domOff today target)
    (window_data feedOff domOff today target tol series)

/-- Collapse a calculator call that is known never to raise into its value
(in `main` an exception would propagate, but the guarded calls never raise). -/
def okOrNone : Except PyErr (Option ℚ) → Option ℚ
  | Except.ok v => v
  | Except.error _ => none

/-- `implied_rate_current` of `main` line 275:
`calculate_implied_exchange_rate(arg_price, us_price_current, ratio) if
arg_price > 0 and us_price_current > 0 else None`. -/
def implied_rate_current_calc (arg_price us_price_current ratio : ℚ) : Option ℚ :=
  if 0 < arg_price ∧ 0 < us_price_current then
    okOrNone (calculate_implied_exchange_rate (some arg_price) (some us_price_current)
      (some ratio))
  else none

/-- `implied_rate_17` of `main` line 276, before the fallback of lines 279-280. -/
def implied_rate_17_calc (arg_price us_price_17 ratio : ℚ) : Option ℚ :=
  if 0 < arg_price ∧ 0 < us_price_17 then
    okOrNone (calculate_implied_exchange_rate (some arg_price) (some us_price_17)
      (some ratio))
  else none

/-- The pair of implied-rate bindings of `main` after lines 275-280: the first
component is the variable `implied_rate_17` after the fallback
`if not implied_rate_17 and implied_rate_current: implied_rate_17 =
implied_rate_current`, the second is `implied_rate_current`. -/
def resolve_implied_rates (arg_price us_price_17 us_price_current ratio : ℚ) :
    Option ℚ × Option ℚ :=
  let irc := implied_rate_current_calc arg_price us_price_current ratio
  let ir17 := implied_rate_17_calc arg_price us_price_17 ratio
  let ir17f := if truthyOpt ir17 = false ∧ truthyOpt irc = true then irc else ir17
  (ir17f, irc)

/-- The `'TC Implícito 17:00'` cell of the exported summary row: a row is
appended only under the line-294 guard
`arg_price > 0 and us_price_17 > 0 and us_price_current > 0`; inside it,
line 304 evaluates `f"ARS {implied_rate_17:.2f}" if implied_rate_17 else
"N/A"` on the post-fallback variable.  The outer `none` models "no summary
row appended"; `some cell` models an appended row whose cell is the
formatted rate, `cell = none` being the `"N/A"` text. -/
def summary_tc_implicito_17 (arg_price us_price_17 us_price_current ratio : ℚ) :
    Option (Option ℚ) :=
  if 0 < arg_price ∧ 0 < us_price_17 ∧ 0 < us_price_current then
    let p := resolve_implied_rates arg_price us_price_17 us_price_current ratio
    some (if truthyOpt p.1 = true then p.1 else none)
  else none

/-- A provider that always returns an empty series and never raises. -/
def fetch_always_empty : ℤ → ℤ → ℕ → Except Unit (List Bar) :=
  fun _ _ _ => Except.ok []

/-- A provider whose every bar is old enough to survive the 20-minute filter
when the clock reads 10000. -/
def fetch_old_bar : ℤ → ℤ → ℕ → Except Unit (List Bar) :=
  fun _ _ _ => Except.ok [Bar.mk 5000 1]

/-- A provider that is empty on the unshifted window and the 1-shifted window
for start date 100, and non-empty on the 2-shifted window. -/
def fetch_two_days_back : ℤ → ℤ → ℕ → Except Unit (List Bar) :=
  fun s _ _ => if s = 98 then Except.ok [Bar.mk 7 1] else Except.ok []

theorem truthyOpt_eq_true {x : Option ℚ} :
    truthyOpt x = true ↔ ∃ q, x = some q ∧ q ≠ 0 := by
  cases x <;> simp [truthyOpt]

theorem truthyOpt_eq_false {x : Option ℚ} :
    truthyOpt x = false ↔ x = none ∨ x = some 0 := by
  cases x <;> simp [truthyOpt]

/-- Claim C1: `calculate_theoretical_price` returns `None` when
`us_price_17` is `None` or zero, otherwise returns exactly
`arg_price * (1 + (us_price_18 - us_price_17) / us_price_17)`; the result
never depends on `ratio`, and at `(100, 50, 55, r)` it is `110` for every
`r`. -/
theorem c1_theoretical_price_formula (a n t : ℚ) (r r2 d t0 n0 : Option ℚ) (ht : t ≠ 0) :
    calculate_theoretical_price (some a) none (some n) r = Except.ok none ∧
    calculate_theoretical_price (some a) (some 0) (some n) r = Except.ok none ∧
    calculate_theoretical_price (some a) (some t) (some n) r =
      Except.ok (some (a * (1 + (n - t) / t))) ∧
    calculate_theoretical_price d t0 n0 r = calculate_theoretical_price d t0 n0 r2 ∧
    calculate_theoretical_price (some 100) (some 50) (some 55) r = Except.ok (some 110) := by
  refine ⟨?_, ?_, ?_, rfl, ?_⟩
  · simp [calculate_theoretical_price, truthyOpt]
  · simp [calculate_theoretical_price, truthyOpt]
  · simp [calculate_theoretical_price, truthyOpt, ht]
  · simp [calculate_theoretical_price, truthyOpt]
    norm_num

theorem c1_witness :
    (50 : ℚ) ≠ 0 ∧
    calculate_theoretical_price (some 100) (some 50) (some 55) none =
      Except.ok (some 110) :=
  ⟨by norm_num,
   (c1_theoretical_price_formula 100 55 50 none (some 1) none none none
     (by norm_num)).2.2.2.2⟩

/-- Claim C3 counterexample: the guard of `calculate_implied_exchange_rate`
tests only Python truthiness of `arg_price`, not positivity, so at the
negative domestic price `-100` (with `us_price = 50`, `ratio = 1/2`) the
function returns `-1` instead of the `None` the claim requires. -/
theorem c3_counterexample :
    calculate_implied_exchange_rate (some (-100)) (some 50) (some (1/2)) =
      Except.ok (some (-1)) ∧ ¬ (0 < (-100 : ℚ)) := by
  constructor
  · norm_num [calculate_implied_exchange_rate, truthyOpt]
  · norm_num

/-- Claim C3 (amended): `calculate_implied_exchange_rate` returns
`(arg_price * ratio) / us_price` exactly when `arg_price` is truthy
(non-null and non-zero), `us_price` is a number `> 0` and `ratio` is truthy,
and `None` in every other case; in particular
`calculate_implied_exchange_rate(100, 50, 0.5) = 1` and
`calculate_implied_exchange_rate(100, 0, 0.5) = None`. -/
theorem c3_implied_rate_spec (d f rr : Option ℚ) :
    (calculate_implied_exchange_rate d f rr = Except.ok none ∨
      ∃ a u r : ℚ, d = some a ∧ f = some u ∧ rr = some r ∧ a ≠ 0 ∧ 0 < u ∧ r ≠ 0 ∧
        calculate_implied_exchange_rate d f rr = Except.ok (some ((a * r) / u))) ∧
    (∀ a u r : ℚ, a ≠ 0 → 0 < u → r ≠ 0 →
      calculate_implied_exchange_rate (some a) (some u) (some r) =
        Except.ok (some ((a * r) / u))) ∧
    calculate_implied_exchange_rate (some 100) (some 50) (some (1/2)) =
      Except.ok (some 1) ∧
    calculate_implied_exchange_rate (some 100) (some 0) (some (1/2)) =
      Except.ok none := by
  have hmain : ∀ a u r : ℚ, a ≠ 0 → 0 < u → r ≠ 0 →
      calculate_implied_exchange_rate (some a) (some u) (some r) =
        Except.ok (some ((a * r) / u)) := by
    intro a u r ha hu hr
    simp [calculate_implied_exchange_rate, truthyOpt, ha, hr, hu, ne_of_gt hu]
  refine ⟨?_, hmain, ?_, ?_⟩
  · rcases d with _ | a
    · left; simp [calculate_implied_exchange_rate, truthyOpt]
    · rcases f with _ | u
      · left; simp [calculate_implied_exchange_rate, truthyOpt]
      · rcases rr with _ | r
        · left; simp [calculate_implied_exchange_rate, truthyOpt]
        · by_cases ha : a = 0
          · left; simp [calculate_implied_exchange_rate, truthyOpt, ha]
          · by_cases hr : r = 0
            · left; simp [calculate_implied_exchange_rate, truthyOpt, hr]
            · by_cases hu : u = 0
              · left; simp [calculate_implied_exchange_rate, truthyOpt, hu]
              · by_cases hupos : 0 < u
                · exact Or.inr ⟨a, u, r, rfl, rfl, rfl, ha, hupos, hr,
                    hmain a u r ha hupos hr⟩
                · left
                  simp [calculate_implied_exchange_rate, truthyOpt, ha, hr, hu, hupos]
  · rw [hmain 100 50 (1/2) (by norm_num) (by norm_num) (by norm_num)]
    norm_num
  · simp [calculate_implied_exchange_rate, truthyOpt]

theorem c3_witness :
    calculate_implied_exchange_rate (some 100) (some 50) (some (1/2)) =
      Except.ok (some ((100 * (1/2)) / 50)) :=
  (c3_implied_rate_spec (some 100) (some 50) (some (1/2))).2.1 100 50 (1/2)
    (by norm_num) (by norm_num) (by norm_num)

/-- Claim C4 counterexample: `calculate_theoretical_price` is not exception
free over every input combination: with `arg_price = 100`, a passing guard
(`us_price_17 = 50`) and `us_price_18 = None`, the subtraction
`us_price_18 - us_price_17` raises a `TypeError` instead of returning
`None`. -/
theorem c4_counterexample :
    calculate_theoretical_price (some 100) (some 50) none none =
      Except.error PyErr.typeError := by
  simp [calculate_theoretical_price, truthyOpt]

/-- Claim C4 (amended): `calculate_implied_exchange_rate` terminates without
raising for every combination of inputs, nulls included;
`calculate_theoretical_price` terminates without raising whenever
`arg_price` and `us_price_18` are numbers (any `us_price_17` and `ratio`,
nulls included); and each function produces a numeric result only past its
guard — a non-null non-zero `us_price_17` divisor, resp. a strictly positive
`us_price` divisor — so the division-by-zero branch is unreachable. -/
theorem c4_no_raise (d f r t : Option ℚ) (a n : ℚ) :
    (∃ v, calculate_implied_exchange_rate d f r = Except.ok v) ∧
    (∃ v, calculate_theoretical_price (some a) t (some n) r = Except.ok v) ∧
    (∀ (d2 t2 n2 r2 : Option ℚ) (v : ℚ),
      calculate_theoretical_price d2 t2 n2 r2 = Except.ok (some v) →
        ∃ tq : ℚ, t2 = some tq ∧ tq ≠ 0) ∧
    (∀ (d2 f2 r2 : Option ℚ) (v : ℚ),
      calculate_implied_exchange_rate d2 f2 r2 = Except.ok (some v) →
        ∃ u : ℚ, f2 = some u ∧ 0 < u) := by
  refine ⟨?_, ?_, ?_, ?_⟩
  · by_cases hg : truthyOpt d = true ∧ truthyOpt f = true ∧ truthyOpt r = true
    · obtain ⟨u, hfu, hu0⟩ := truthyOpt_eq_true.mp hg.2.1
      obtain ⟨ad, hda, ha0⟩ := truthyOpt_eq_true.mp hg.1
      obtain ⟨rr, hrr, hr0⟩ := truthyOpt_eq_true.mp hg.2.2
      subst hfu; subst hda; subst hrr
      by_cases hupos : 0 < u
      · exact ⟨some ((ad * rr) / u), by
          simp [calculate_implied_exchange_rate, truthyOpt, ha0, hr0, hu0, hupos]⟩
      · exact ⟨none, by
          simp [calculate_implied_exchange_rate, truthyOpt, ha0, hr0, hu0, hupos]⟩
    · exact ⟨none, by simp [calculate_implied_exchange_rate, hg]⟩
  · by_cases hg : truthyOpt t = false ∨ t = some 0
    · exact ⟨none, by simp [calculate_theoretical_price, hg]⟩
    · push_neg at hg
      obtain ⟨tq, htq, htq0⟩ := truthyOpt_eq_true.mp (by
        cases h : truthyOpt t
        · exact absurd h hg.1
        · rfl)
      subst htq
      exact ⟨some (a * (1 + (n - tq) / tq)), by
        simp [calculate_theoretical_price, truthyOpt, htq0]⟩
  · intro d2 t2 n2 r2 v h
    by_cases hg : truthyOpt t2 = false ∨ t2 = some 0
    · rw [calculate_theoretical_price.eq_def, if_pos hg] at h
      simp at h
    · push_neg at hg
      obtain ⟨tq, htq, htq0⟩ := truthyOpt_eq_true.mp (by
        cases hh : truthyOpt t2
        · exact absurd hh hg.1
        · rfl)
      exact ⟨tq, htq, htq0⟩
  · intro d2 f2 r2 v h
    by_cases hg : truthyOpt d2 = true ∧ truthyOpt f2 = true ∧ truthyOpt r2 = true
    · obtain ⟨u, hfu, hu0⟩ := truthyOpt_eq_true.mp hg.2.1
      subst hfu
      by_cases hupos : 0 < u
      · exact ⟨u, rfl, hupos⟩
      · rw [calculate_implied_exchange_rate.eq_def, if_pos hg] at h
        simp [hupos] at h
    · rw [calculate_implied_exchange_rate.eq_def, if_neg hg] at h
      simp at h

theorem c4_witness :
    ∃ tq : ℚ, some (50 : ℚ) = some tq ∧ tq ≠ 0 :=
  (c4_no_raise none none none none 0 0).2.2.1 (some 100) (some 50) (some 55) none 110
    ((c1_theoretical_price_formula 100 55 50 none none none none none
      (by norm_num)).2.2.2.2)

/-- Claim C7: `should_apply_delay` is true iff the current
Buenos Aires time of day, truncated to the minute, lies in the half-open
session window `[11:30, 17:00)` (690 and 1020 minutes since midnight); in
particular it is true at 12:00 and false at 10:00, at 18:00 and at exactly
17:00:00. -/
theorem c7_should_apply_delay_spec :
    (∀ n : ℕ, should_apply_delay n = true ↔
      (690 ≤ n / 60000000 ∧ n / 60000000 < 1020)) ∧
    should_apply_delay (12 * 3600 * 1000000) = true ∧
    should_apply_delay (10 * 3600 * 1000000) = false ∧
    should_apply_delay (18 * 3600 * 1000000) = false ∧
    should_apply_delay (17 * 3600 * 1000000) = false := by
  refine ⟨?_, by decide, by decide, by decide, by decide⟩
  intro n
  simp only [should_apply_delay, truncMicrosecond, Bool.and_eq_true, decide_eq_true_eq]
  constructor
  · intro h
    omega
  · intro h
    omega

theorem attempts_loop_all_empty (fetch : ℤ → ℤ → ℕ → Except Unit (List Bar))
    (aS aE : ℤ) (ad : Bool) (cutoff : ℤ)
    (h : ∀ a, fetch aS aE a = Except.ok []) :
    ∀ al : List ℕ, attempts_loop fetch aS aE ad cutoff al = (none, al.length) := by
  intro al
  induction al with
  | nil => rfl
  | cons a rest ih => simp [attempts_loop, h a, ih]

theorem days_loop_all_empty (fetch : ℤ → ℤ → ℕ → Except Unit (List Bar))
    (sd ed : ℤ) (ad : Bool) (cutoff : ℤ) (retries : ℕ)
    (h : ∀ s e a, fetch s e a = Except.ok []) :
    ∀ dl : List ℕ, days_loop fetch sd ed ad cutoff retries dl =
      (none, dl.length * retries) := by
  intro dl
  induction dl with
  | nil => simp [days_loop]
  | cons d rest ih =>
      simp [days_loop, attempts_loop_all_empty fetch _ _ ad cutoff (fun a => h _ _ a), ih,
        List.length_range]
      ring

/-- Claim C5: against a provider that always returns an empty series and
never raises, `get_yf_data` performs exactly `retries × 5` provider calls —
`3 × 5 = 15` at the default retry budget — and then returns the no-data
outcome `none` instead of a series. -/
theorem c5_exhausts_attempts (fetch : ℤ → ℤ → ℕ → Except Unit (List Bar))
    (start_date end_date nowUTC : ℤ) (apply_delay : Bool) (retries : ℕ)
    (h : ∀ s e a, fetch s e a = Except.ok []) :
    get_yf_data fetch start_date end_date apply_delay nowUTC retries =
      (none, 5 * retries) ∧
    get_yf_data fetch start_date end_date apply_delay nowUTC 3 = (none, 15) := by
  constructor
  · rw [get_yf_data, days_loop_all_empty fetch _ _ _ _ _ h]
    simp [List.length_range, Nat.mul_comm]
  · rw [get_yf_data, days_loop_all_empty fetch _ _ _ _ _ h]
    simp [List.length_range]

theorem c5_witness :
    get_yf_data fetch_always_empty 0 1 false 0 3 = (none, 15) :=
  (c5_exhausts_attempts fetch_always_empty 0 1 0 false 3 (fun _ _ _ => rfl)).2

theorem attempts_loop_some_delay (fetch : ℤ → ℤ → ℕ → Except Unit (List Bar))
    (aS aE cutoff : ℤ) (al : List ℕ) (s : List Bar) (c : ℕ)
    (h : attempts_loop fetch aS aE true cutoff al = (some s, c)) :
    s ≠ [] ∧ ∀ b ∈ s, b.ts ≤ cutoff := by
  induction al generalizing c with
  | nil => simp [attempts_loop] at h
  | cons a rest ih =>
      cases hf : fetch aS aE a with
      | error e =>
          simp only [attempts_loop, hf] at h
          rw [Prod.mk.injEq] at h
          exact ih (attempts_loop fetch aS aE true cutoff rest).2 (by rw [← h.1])
      | ok stock =>
          by_cases hst : stock = []
          · simp only [attempts_loop, hf, hst, if_pos] at h
            rw [Prod.mk.injEq] at h
            exact ih (attempts_loop fetch aS aE true cutoff rest).2 (by rw [← h.1])
          · by_cases hst2 : delay_filter cutoff stock = []
            · simp only [attempts_loop, hf, if_neg hst, if_true, hst2, if_pos] at h
              rw [Prod.mk.injEq] at h
              exact ih (attempts_loop fetch aS aE true cutoff rest).2 (by rw [← h.1])
            · simp only [attempts_loop, hf, if_neg hst, if_true, if_neg hst2] at h
              rw [Prod.mk.injEq] at h
              obtain ⟨h1, h2⟩ := h
              obtain rfl : delay_filter cutoff stock = s := Option.some.inj h1
              refine ⟨hst2, ?_⟩
              intro b hb
              have := List.mem_filter.mp hb
              simpa using this.2

theorem days_loop_some_delay (fetch : ℤ → ℤ → ℕ → Except Unit (List Bar))
    (sd ed cutoff : ℤ) (retries : ℕ) (dl : List ℕ)
    (s : List Bar) (d : ℕ) (c : ℕ)
    (h : days_loop fetch sd ed true cutoff retries dl = (some (s, d), c)) :
    s ≠ [] ∧ ∀ b ∈ s, b.ts ≤ cutoff := by
  induction dl generalizing c with
  | nil => simp [days_loop] at h
  | cons day rest ih =>
      cases ha : (attempts_loop fetch (sd - (day : ℤ)) (ed - (day : ℤ)) true cutoff
          (List.range retries)).1 with
      | some stock =>
          simp only [days_loop, ha] at h
          rw [Prod.mk.injEq] at h
          obtain ⟨h1, h2⟩ := h
          have hpair : (stock, day) = (s, d) := Option.some.inj h1
          have hstock : stock = s := congrArg Prod.fst hpair
          subst hstock
          exact attempts_loop_some_delay fetch _ _ cutoff (List.range retries) stock
            (attempts_loop fetch (sd - (day : ℤ)) (ed - (day : ℤ)) true cutoff
              (List.range retries)).2 (by rw [← ha])
      | none =>
          simp only [days_loop, ha] at h
          rw [Prod.mk.injEq] at h
          exact ih (days_loop fetch sd ed true cutoff retries rest).2 (by rw [← h.1])

/-- Claim C6: whenever `get_yf_data` runs with the delay flag set and returns
a series, that series is non-empty and every bar's timestamp is at most
`now - 20 minutes`; and an attempt whose raw series is non-empty but becomes
empty after delay filtering leaves the loop in exactly the state an empty
fetch does (same remaining result, one more provider call). -/
theorem c6_delay_invariant (fetch : ℤ → ℤ → ℕ → Except Unit (List Bar))
    (start_date end_date nowUTC : ℤ) (retries : ℕ) :
    (∀ (s : List Bar) (d c : ℕ),
      get_yf_data fetch start_date end_date true nowUTC retries = (some (s, d), c) →
        s ≠ [] ∧ ∀ b ∈ s, b.ts ≤ nowUTC - 20 * 60) ∧
    (∀ (adjS adjE cutoff : ℤ) (attempt : ℕ) (rest : List ℕ) (raw : List Bar),
      fetch adjS adjE attempt = Except.ok raw → raw ≠ [] →
      delay_filter cutoff raw = [] →
      attempts_loop fetch adjS adjE true cutoff (attempt :: rest) =
        ((attempts_loop fetch adjS adjE true cutoff rest).1,
         (attempts_loop fetch adjS adjE true cutoff rest).2 + 1)) ∧
    (∀ (adjS adjE cutoff : ℤ) (attempt : ℕ) (rest : List ℕ),
      fetch adjS adjE attempt = Except.ok [] →
      attempts_loop fetch adjS adjE true cutoff (attempt :: rest) =
        ((attempts_loop fetch adjS adjE true cutoff rest).1,
         (attempts_loop fetch adjS adjE true cutoff rest).2 + 1)) := by
  refine ⟨?_, ?_, ?_⟩
  · intro s d c h
    exact days_loop_some_delay fetch start_date end_date (nowUTC - 20 * 60) retries
      (List.range 5) s d c h
  · intro adjS adjE cutoff attempt rest raw hf hraw hfilt
    simp [attempts_loop, hf, hraw, hfilt]
  · intro adjS adjE cutoff attempt rest hf
    simp [attempts_loop, hf]

theorem c6_witness :
    [Bar.mk 5000 1] ≠ [] ∧ ∀ b ∈ [Bar.mk 5000 1], b.ts ≤ 10000 - 20 * 60 :=
  (c6_delay_invariant fetch_old_bar 0 1 10000 3).1 [Bar.mk 5000 1] 0 1 (by rfl)

theorem attempts_loop_first_success (fetch : ℤ → ℤ → ℕ → Except Unit (List Bar))
    (aS aE cutoff : ℤ) (a : ℕ) (rest : List ℕ) (s : List Bar)
    (hf : fetch aS aE a = Except.ok s) (hs : s ≠ []) :
    attempts_loop fetch aS aE false cutoff (a :: rest) = (some s, 1) := by
  simp [attempts_loop, hf, hs]

theorem days_loop_cons_empty (fetch : ℤ → ℤ → ℕ → Except Unit (List Bar))
    (sd ed : ℤ) (ad : Bool) (cutoff : ℤ) (retries : ℕ) (d : ℕ) (rest : List ℕ)
    (h : ∀ a, fetch (sd - (d : ℤ)) (ed - (d : ℤ)) a = Except.ok []) :
    days_loop fetch sd ed ad cutoff retries (d :: rest) =
      ((days_loop fetch sd ed ad cutoff retries rest).1,
       retries + (days_loop fetch sd ed ad cutoff retries rest).2) := by
  simp [days_loop, attempts_loop_all_empty fetch _ _ ad cutoff h, List.length_range]

theorem days_loop_cons_success (fetch : ℤ → ℤ → ℕ → Except Unit (List Bar))
    (sd ed cutoff : ℤ) (retries : ℕ) (d : ℕ) (rest : List ℕ) (s : List Bar)
    (hr : 0 < retries)
    (hf : fetch (sd - (d : ℤ)) (ed - (d : ℤ)) 0 = Except.ok s) (hs : s ≠ []) :
    days_loop fetch sd ed false cutoff retries (d :: rest) = (some (s, d), 1) := by
  obtain ⟨m, rfl⟩ : ∃ m, retries = m + 1 := ⟨retries - 1, by omega⟩
  simp only [days_loop, List.range_succ_eq_map,
    attempts_loop_first_success fetch _ _ cutoff 0 _ s hf hs]

theorem days_loop_prefix_empty (fetch : ℤ → ℤ → ℕ → Except Unit (List Bar))
    (sd ed : ℤ) (ad : Bool) (cutoff : ℤ) (retries : ℕ) (dl1 dl2 : List ℕ)
    (h : ∀ d ∈ dl1, ∀ a, fetch (sd - (d : ℤ)) (ed - (d : ℤ)) a = Except.ok []) :
    days_loop fetch sd ed ad cutoff retries (dl1 ++ dl2) =
      ((days_loop fetch sd ed ad cutoff retries dl2).1,
       dl1.length * retries + (days_loop fetch sd ed ad cutoff retries dl2).2) := by
  induction dl1 with
  | nil => simp
  | cons d rest ih =>
      rw [List.cons_append, days_loop_cons_empty fetch sd ed ad cutoff retries d _
        (h d (List.mem_cons_self d rest))]
      rw [ih (fun d2 hd2 a => h d2 (List.mem_cons_of_mem d hd2) a)]
      rw [Prod.mk.injEq]
      refine ⟨rfl, ?_⟩
      simp only [List.length_cons]
      ring

/-- Claim C8: when the provider is empty on every attempt of the first `k`
shifted windows (`k < 5`) and non-empty on the first attempt of the `k`-th
window, `get_yf_data` returns the series fetched with both dates shifted back
by exactly `k` days, tagged with `days_back = k`, after `k·retries + 1`
provider calls; the shifted window keeps the original window's length. -/
theorem c8_day_fallback (fetch : ℤ → ℤ → ℕ → Except Unit (List Bar))
    (start_date end_date nowUTC : ℤ) (retries k : ℕ) (s : List Bar)
    (hr : 0 < retries) (hk : k < 5)
    (hempty : ∀ d : ℕ, d < k → ∀ a : ℕ,
      fetch (start_date - (d : ℤ)) (end_date - (d : ℤ)) a = Except.ok [])
    (hk0 : fetch (start_date - (k : ℤ)) (end_date - (k : ℤ)) 0 = Except.ok s)
    (hs : s ≠ []) :
    get_yf_data fetch start_date end_date false nowUTC retries =
      (some (s, k), k * retries + 1) ∧
    (end_date - (k : ℤ)) - (start_date - (k : ℤ)) = end_date - start_date := by
  constructor
  · have h5 : List.range 5 =
        List.range k ++ (k :: ((List.range (4 - k)).map (fun i => k + 1 + i))) := by
      interval_cases k <;> rfl
    rw [get_yf_data, h5,
      days_loop_prefix_empty fetch _ _ _ _ _ _ _
        (fun d hd a => hempty d (List.mem_range.mp hd) a),
      days_loop_cons_success fetch _ _ _ retries k _ s hr hk0 hs]
    simp [List.length_range]
  · ring

theorem c8_witness :
    get_yf_data fetch_two_days_back 100 101 false 0 3 = (some ([Bar.mk 7 1], 2), 7) ∧
    ((101 : ℤ) - ((2 : ℕ) : ℤ)) - (100 - ((2 : ℕ) : ℤ)) = 101 - 100 :=
  c8_day_fallback fetch_two_days_back 100 101 0 3 2 [Bar.mk 7 1]
    (by norm_num) (by norm_num)
    (fun d hd a => by
      interval_cases d <;> norm_num [fetch_two_days_back])
    (by norm_num [fetch_two_days_back]) (by simp)

theorem min_by_first_eq_none_iff (key : Bar → ℤ) (l : List Bar) :
    min_by_first key l = none ↔ l = [] := by
  cases l with
  | nil => simp [min_by_first]
  | cons b rest =>
      simp only [min_by_first]
      cases hr : min_by_first key rest with
      | none => simp
      | some mr => by_cases h : key mr < key b <;> simp [h]

theorem min_by_first_mem (key : Bar → ℤ) (l : List Bar) :
    ∀ m, min_by_first key l = some m → m ∈ l := by
  induction l with
  | nil => intro m h; simp [min_by_first] at h
  | cons b rest ih =>
      intro m h
      simp only [min_by_first] at h
      cases hr : min_by_first key rest with
      | none =>
          have h2 : some b = some m := by rw [hr] at h; exact h
          obtain rfl := Option.some.inj h2
          exact List.mem_cons_self _ _
      | some mr =>
          have h2 : (if key mr < key b then some mr else some b) = some m := by
            rw [hr] at h; exact h
          by_cases hlt : key mr < key b
          · rw [if_pos hlt] at h2
            obtain rfl := Option.some.inj h2
            exact List.mem_cons_of_mem b (ih mr hr)
          · rw [if_neg hlt] at h2
            obtain rfl := Option.some.inj h2
            exact List.mem_cons_self _ _

theorem min_by_first_le (key : Bar → ℤ) (l : List Bar) :
    ∀ m, min_by_first key l = some m → ∀ x ∈ l, key m ≤ key x := by
  induction l with
  | nil => intro m h; simp [min_by_first] at h
  | cons b rest ih =>
      intro m h x hx
      simp only [min_by_first] at h
      cases hr : min_by_first key rest with
      | none =>
          have h2 : some b = some m := by rw [hr] at h; exact h
          obtain rfl := Option.some.inj h2
          have hrest : rest = [] := (min_by_first_eq_none_iff key rest).mp hr
          subst hrest
          rcases List.mem_cons.mp hx with rfl | hxr
          · exact le_rfl
          · simp at hxr
      | some mr =>
          have h2 : (if key mr < key b then some mr else some b) = some m := by
            rw [hr] at h; exact h
          by_cases hlt : key mr < key b
          · rw [if_pos hlt] at h2
            obtain rfl := Option.some.inj h2
            rcases List.mem_cons.mp hx with rfl | hxr
            · exact le_of_lt hlt
            · exact ih mr hr x hxr
          · rw [if_neg hlt] at h2
            obtain rfl := Option.some.inj h2
            rcases List.mem_cons.mp hx with rfl | hxr
            · exact le_rfl
            · exact le_trans (not_lt.mp hlt) (ih mr hr x hxr)

theorem min_by_first_earliest (key : Bar → ℤ) (l : List Bar) :
    ∀ m, min_by_first key l = some m →
      ∃ l1 l2, l = l1 ++ m :: l2 ∧ ∀ x ∈ l1, key m < key x := by
  induction l with
  | nil => intro m h; simp [min_by_first] at h
  | cons b rest ih =>
      intro m h
      simp only [min_by_first] at h
      cases hr : min_by_first key rest with
      | none =>
          have h2 : some b = some m := by rw [hr] at h; exact h
          obtain rfl := Option.some.inj h2
          exact ⟨[], rest, rfl, by simp⟩
      | some mr =>
          have h2 : (if key mr < key b then some mr else some b) = some m := by
            rw [hr] at h; exact h
          by_cases hlt : key mr < key b
          · rw [if_pos hlt] at h2
            obtain rfl := Option.some.inj h2
            obtain ⟨l1, l2, hdecomp, hl1⟩ := ih mr hr
            refine ⟨b :: l1, l2, by rw [hdecomp]; rfl, ?_⟩
            intro x hx
            rcases List.mem_cons.mp hx with rfl | hx2
            · exact hlt
            · exact hl1 x hx2
          · rw [if_neg hlt] at h2
            obtain rfl := Option.some.inj h2
            exact ⟨[], rest, rfl, by simp⟩

/-- Claim C2 (amended): `nearest_at` never returns a bar whose domestic time
of day differs from the target by more than the tolerance, and it returns
`none` exactly when no candidate lies in the inclusive window; when
candidates exist, the returned bar minimises the minute-truncated distance
`minute_key` (the key `abs(x.replace(second=0, microsecond=0) - target_time)`
of the source) over the window, and exact `minute_key` ties keep the
earliest-in-series candidate. -/
theorem c2_nearest_at_spec (feedOff domOff today target tol : ℤ) (series : List Bar) :
    (window_data feedOff domOff today target tol series = [] →
      nearest_at feedOff domOff today target tol series = none) ∧
    (window_data feedOff domOff today target tol series ≠ [] →
      nearest_at feedOff domOff today target tol series ≠ none) ∧
    (∀ b, nearest_at feedOff domOff today target tol series = some b →
      b ∈ window_data feedOff domOff today target tol series ∧
      |dom_tod domOff b - target| ≤ tol * 60 ∧
      (∀ x ∈ window_data feedOff domOff today target tol series,
        minute_key domOff today target b ≤ minute_key domOff today target x) ∧
      ∃ l1 l2, window_data feedOff domOff today target tol series = l1 ++ b :: l2 ∧
        ∀ x ∈ l1, minute_key domOff today target b < minute_key domOff today target x) := by
  refine ⟨?_, ?_, ?_⟩
  · intro hw
    rw [nearest_at, hw]
    rfl
  · intro hw hnone
    rw [nearest_at] at hnone
    exact hw ((min_by_first_eq_none_iff _ _).mp hnone)
  · intro b h
    rw [nearest_at] at h
    have hmem := min_by_first_mem _ _ b h
    refine ⟨hmem, ?_, min_by_first_le _ _ b h, min_by_first_earliest _ _ b h⟩
    have hf := (List.mem_filter.mp hmem).2
    simp only [Bool.and_eq_true, decide_eq_true_eq] at hf
    rw [abs_le]
    omega

/-- Claim C2 counterexample: with two bars of today at domestic times
16:56:30 and 17:03:50 (60990 s and 61430 s) and the 17:00 ± 10 min window,
the code returns the 17:03:50 bar — its minute-truncated key 180 beats 240 —
although the 16:56:30 bar is strictly closer to the target in actual time of
day (210 s vs 230 s), so `nearest_at` does not minimise the absolute
time-of-day difference. -/
theorem c2_counterexample :
    nearest_at 0 0 0 61200 10 [Bar.mk 60990 1, Bar.mk 61430 2] = some (Bar.mk 61430 2) ∧
    (Bar.mk 60990 1) ∈ window_data 0 0 0 61200 10 [Bar.mk 60990 1, Bar.mk 61430 2] ∧
    |dom_tod 0 (Bar.mk 61430 2) - 61200| > |dom_tod 0 (Bar.mk 60990 1) - 61200| := by
  refine ⟨by decide, by decide, by decide⟩

theorem c2_witness :
    (Bar.mk 61430 2) ∈ window_data 0 0 0 61200 10 [Bar.mk 61430 2] ∧
    |dom_tod 0 (Bar.mk 61430 2) - 61200| ≤ 10 * 60 :=
  ⟨(((c2_nearest_at_spec 0 0 0 61200 10 [Bar.mk 61430 2]).2.2 (Bar.mk 61430 2))
      (by decide)).1,
   (((c2_nearest_at_spec 0 0 0 61200 10 [Bar.mk 61430 2]).2.2 (Bar.mk 61430 2))
      (by decide)).2.1⟩

/-- Claim C10: the "today" restriction of the target-time alignment compares
each bar's calendar date in the feed's native timezone with today's domestic
date, and the conversion into the domestic timezone happens only afterwards:
for a bar whose feed date and domestic date differ, candidacy is decided by
the feed date alone — it is kept exactly when its feed date equals `today`,
and a bar whose domestic date is `today` but whose feed date is not is
excluded. -/
theorem c10_today_filter_uses_feed_date (series : List Bar)
    (feedOff domOff today target tol : ℤ) (b : Bar)
    (hb : b ∈ series)
    (hdiff : feed_date feedOff b ≠ dom_date domOff b) :
    (b ∈ today_data feedOff today series ↔ feed_date feedOff b = today) ∧
    (b ∈ window_data feedOff domOff today target tol series →
      feed_date feedOff b = today) ∧
    (dom_date domOff b = today → feed_date feedOff b ≠ today) ∧
    (dom_date domOff b = today → b ∉ today_data feedOff today series) := by
  have hmem : b ∈ today_data feedOff today series ↔ feed_date feedOff b = today := by
    rw [today_data, List.mem_filter]
    simp [hb]
  refine ⟨hmem, ?_, ?_, ?_⟩
  · intro hw
    exact hmem.mp (List.mem_filter.mp hw).1
  · intro hdom
    rw [hdom] at hdiff
    exact hdiff
  · intro hdom hmem2
    exact (hdom ▸ hdiff) (hmem.mp hmem2)

theorem c10_witness :
    Bar.mk 90000 1 ∉ today_data 0 0 [Bar.mk 90000 1] :=
  (c10_today_filter_uses_feed_date [Bar.mk 90000 1] 0 (-10800) 0 61200 10
    (Bar.mk 90000 1) (by decide) (by decide)).2.2.2 (by decide)

/-- Claim C9 counterexample: in `main`, the fallback
`if not implied_rate_17 and implied_rate_current: implied_rate_17 =
implied_rate_current` overwrites the only binding of the target-time implied
rate.  With `arg_price = 100`, `us_price_17 = 0`, `us_price_current = 50`,
`ratio = 2` the target-time rate is null before the fallback, yet afterwards
the stored pair is `(some 4, some 4)`: the target-time slot holds the "now"
rate, is not null, and is indistinguishable from the now rate. -/
theorem c9_counterexample :
    resolve_implied_rates 100 0 50 2 = (some 4, some 4) ∧
    implied_rate_17_calc 100 0 2 = none ∧
    (resolve_implied_rates 100 0 50 2).1 ≠ none := by
  have h17 : implied_rate_17_calc 100 0 2 = none := by
    norm_num [implied_rate_17_calc]
  have hcur : implied_rate_current_calc 100 50 2 = some 4 := by
    norm_num [implied_rate_current_calc, calculate_implied_exchange_rate, truthyOpt,
      okOrNone]
  have hmain : resolve_implied_rates 100 0 50 2 = (some 4, some 4) := by
    norm_num [resolve_implied_rates, h17, hcur, truthyOpt]
  exact ⟨hmain, h17, by rw [hmain]; simp⟩

theorem implied_rate_eval (a u r : ℚ) (ha : a ≠ 0) (hu : 0 < u) (hr : r ≠ 0) :
    calculate_implied_exchange_rate (some a) (some u) (some r) =
      Except.ok (some ((a * r) / u)) := by
  simp [calculate_implied_exchange_rate, truthyOpt, ha, hr, hu, ne_of_gt hu]

/-- Claim C9 (amended): when the target-time implied rate is falsy (null or
zero) and the now implied rate is truthy, `main` assigns the now value to the
`implied_rate_17` variable itself, so the underlying null is not retained and
the two stored metrics become equal — the substitution is visible to
everything reading that binding, not kept distinguishable in the data model;
the exported summary, however, is never conflated, because in that situation
the line-294 guard `arg_price > 0 and us_price_17 > 0 and us_price_current >
0` cannot hold and no summary row is appended at all. -/
theorem c9_fallback_conflates (a u17 ucur r : ℚ)
    (h17 : truthyOpt (implied_rate_17_calc a u17 r) = false)
    (hcur : truthyOpt (implied_rate_current_calc a ucur r) = true) :
    (resolve_implied_rates a u17 ucur r).1 = implied_rate_current_calc a ucur r ∧
    (resolve_implied_rates a u17 ucur r).1 = (resolve_implied_rates a u17 ucur r).2 ∧
    summary_tc_implicito_17 a u17 ucur r = none := by
  have h1 : (resolve_implied_rates a u17 ucur r).1 = implied_rate_current_calc a ucur r := by
    simp [resolve_implied_rates, h17, hcur]
  have h2 : (resolve_implied_rates a u17 ucur r).2 = implied_rate_current_calc a ucur r := by
    simp [resolve_implied_rates]
  refine ⟨h1, by rw [h1, h2], ?_⟩
  have hguard : ¬ (0 < a ∧ 0 < u17 ∧ 0 < ucur) := by
    rintro ⟨ha, hu17, hucur⟩
    have hr : r ≠ 0 := by
      intro hr0
      subst hr0
      rw [implied_rate_current_calc, if_pos ⟨ha, hucur⟩] at hcur
      norm_num [calculate_implied_exchange_rate, truthyOpt, okOrNone] at hcur
    have ha0 : a ≠ 0 := ne_of_gt ha
    have hu170 : u17 ≠ 0 := ne_of_gt hu17
    rw [implied_rate_17_calc, if_pos ⟨ha, hu17⟩,
      implied_rate_eval a u17 r ha0 hu17 hr] at h17
    have hv : (a * r) / u17 ≠ 0 := div_ne_zero (mul_ne_zero ha0 hr) hu170
    simp [okOrNone, truthyOpt, hv] at h17
  rw [summary_tc_implicito_17, if_neg hguard]

theorem c9_witness :
    (resolve_implied_rates 100 0 50 2).1 = implied_rate_current_calc 100 50 2 ∧
    (resolve_implied_rates 100 0 50 2).1 = (resolve_implied_rates 100 0 50 2).2 ∧
    summary_tc_implicito_17 100 0 50 2 = none :=
  c9_fallback_conflates 100 0 50 2
    (by norm_num [implied_rate_17_calc, truthyOpt])
    (by norm_num [implied_rate_current_calc, calculate_implied_exchange_rate,
      truthyOpt, okOrNone])
